import Mathlib

/-!
Shallow embedding of the core of `src/main.py` (a personal password vault):
the query predicate builder `buildWhereClause` with its callers `search` and
`deleteEntries`, the cipher mode controller (`GPGCipher.encrypt` /
`GPGCipher.decrypt`, `EncryptPassword`, `transcodeDb`), and the export path
derivation of `exportEntry`.

Conventions of the embedding:
  - Python optional string arguments become `Option String`; Python
    truthiness (`if id:`) becomes `truthy` / `truthyV`.
  - The WHERE clause the Python builds by f-string interpolation is kept as
    a list of structured conditions `Cond`, each recording the literal text
    interpolated into the SQL fragment; `renderWhere` reproduces the exact
    SQL string the Python produces, and `condMatches` gives the SQLite
    semantics of each fragment (`=` is literal comparison, `like` is the
    SQL LIKE pattern language with `%`/`_` wildcards, ASCII
    case-insensitive, as SQLite evaluates it by default).
  - The sqlite store becomes a `List Entry`; the GPG engine becomes an
    abstract `Engine` oracle deciding ok/non-ok per call, with an idealized
    reversible ciphertext `CT` recording the mode it was produced under.
  - `sys.exit(code)` becomes `Except.error code`: the process terminates
    with that status, nothing downstream runs.
-/

namespace PassDb

/-- Python whitespace class used by `str.strip()` and the regex `\s`: both
are backed by the same Unicode whitespace predicate, which holds for the
ASCII whitespace characters, the C1 separators and NEL, NBSP, Ogham space
mark, the U+2000 to U+200A spaces, the line and paragraph separators, the
narrow and mathematical spaces and the ideographic space. -/
def isPySpace (c : Char) : Bool :=
  c == ' ' || c == '\t' || c == '\n' || c == '\r' || c == '\x0b' || c == '\x0c' ||
    c == '\x1c' || c == '\x1d' || c == '\x1e' || c == '\x1f' ||
    c == '\x85' || c == '\xa0' || c == '\u1680' ||
    (0x2000 ≤ c.toNat && c.toNat ≤ 0x200a) ||
    c == '\u2028' || c == '\u2029' || c == '\u202f' || c == '\u205f' || c == '\u3000'

/-- Python `str.strip()` on the character list. -/
def pyStripList (l : List Char) : List Char :=
  ((l.dropWhile isPySpace).reverse.dropWhile isPySpace).reverse

/-- Python `str.strip()`. -/
def pyStrip (s : String) : String :=
  String.mk (pyStripList s.data)

/-- Python `re.split` on the pattern of one-or-more whitespace characters:
splits at each maximal whitespace run, keeping the (possibly empty) pieces
between the runs, exactly as `re.split` does. -/
def splitWsAux (l : List Char) : List String :=
  let word : String := String.mk (l.takeWhile (fun c => !(isPySpace c)))
  match h : l.dropWhile (fun c => !(isPySpace c)) with
  | [] => [word]
  | _ :: t => word :: splitWsAux (t.dropWhile isPySpace)
termination_by l.length
decreasing_by
  have h1 : (l.dropWhile (fun c => !(isPySpace c))).length ≤ l.length :=
    (List.dropWhile_sublist _).length_le
  rw [h] at h1
  have h2 : (t.dropWhile isPySpace).length ≤ t.length :=
    (List.dropWhile_sublist _).length_le
  simp only [List.length_cons] at h1
  omega

/-- Python `re.split` of a string on runs of whitespace, as `exportEntry`
applies it to the stripped tag. -/
def pySplitWs (s : String) : List String :=
  splitWsAux s.data

/-- Python `sep.join(parts)`. -/
def pyJoin (sep : String) : List String → String
  | [] => ""
  | [w] => w
  | w :: ws => w ++ sep ++ pyJoin sep ws

/-- A Python value that may reach `buildWhereClause`'s `id` argument: the
command line hands over a string, callers could pass an integer. -/
inductive PyVal where
  | str (s : String)
  | int (n : Int)
deriving DecidableEq

/-- Python truthiness of an optional string: `None` and the empty string are
falsy. -/
def truthy : Option String → Bool
  | none => false
  | some s => s != ""

/-- Python truthiness of the optional `id` value: `None`, `0` and the empty
string are falsy. -/
def truthyV : Option PyVal → Bool
  | none => false
  | some (.str s) => s != ""
  | some (.int n) => n != 0

/-- Python `str(id)` as interpolated by the f-string. -/
def pyvalStr : Option PyVal → String
  | none => "None"
  | some (.str s) => s
  | some (.int n) => toString n

/-- The string an `Option String` argument interpolates to when the builder
has already established it is truthy. -/
def getS : Option String → String
  | none => ""
  | some s => s

/-- Columns of the ACCOUNT table that the where-clause builder can name. -/
inductive Field where
  | id
  | service
  | username
  | tag
deriving DecidableEq

/-- One conjunct of the built where clause, recording the literal text the
Python interpolates: `eq f v` stands for the fragment f=`'v'` and
`like f p` for the fragment f `like 'p'`. -/
inductive Cond where
  | eq (f : Field) (v : String)
  | like (f : Field) (p : String)
deriving DecidableEq

def fieldName : Field → String
  | .id => "id"
  | .service => "service"
  | .username => "username"
  | .tag => "tag"

/-- The exact SQL text of one conjunct, as the Python f-strings produce it. -/
def renderCond : Cond → String
  | .eq f v => fieldName f ++ "='" ++ v ++ "'"
  | .like f p => fieldName f ++ " like '" ++ p ++ "'"

/-- The exact SQL text of the whole where clause. -/
def renderWhere (cs : List Cond) : String :=
  "where " ++ pyJoin (" and ") (cs.map renderCond)

/-- One row of the ACCOUNT table. `id` is the integer primary key; the other
columns are text. -/
structure Entry where
  id : Int
  service : String
  username : String
  password : String
  tag : String
  note : String
deriving DecidableEq

/-- The text a column compares against. For the `id` column SQLite's integer
affinity converts the quoted literal to a number; the embedding covers the
canonical decimal rendering, which is what `str(id)` interpolates. -/
def fieldVal (f : Field) (e : Entry) : String :=
  match f with
  | .id => toString e.id
  | .service => e.service
  | .username => e.username
  | .tag => e.tag

/-- ASCII lower-casing, the folding SQLite's default LIKE applies. -/
def lowerAscii (c : Char) : Char :=
  if 'A' ≤ c && c ≤ 'Z' then Char.ofNat (c.toNat + 32) else c

/-- SQL LIKE pattern matching, fuelled so the recursion is structural and
computable by the kernel: `%` matches any run of characters, `_` any one
character, anything else itself up to ASCII case. Every recursive call
shortens pattern or text, so fuel of pattern length + text length + 1
is never exhausted. -/
def likeMatchF : Nat → List Char → List Char → Bool
  | 0, _, _ => false
  | _ + 1, [], [] => true
  | _ + 1, [], _ :: _ => false
  | fuel + 1, '%' :: ps, t =>
      likeMatchF fuel ps t ||
        (match t with
         | [] => false
         | _ :: ts => likeMatchF fuel ('%' :: ps) ts)
  | fuel + 1, '_' :: ps, t =>
      (match t with
       | [] => false
       | _ :: ts => likeMatchF fuel ps ts)
  | fuel + 1, p :: ps, t =>
      (match t with
       | [] => false
       | c :: ts => (lowerAscii p == lowerAscii c) && likeMatchF fuel ps ts)

/-- SQL LIKE pattern matching with enough fuel. -/
def likeMatch (p t : List Char) : Bool :=
  likeMatchF (p.length + t.length + 1) p t

/-- Whether one conjunct of the clause accepts a row. -/
def condMatches (c : Cond) (e : Entry) : Bool :=
  match c with
  | .eq f v => fieldVal f e == v
  | .like f p => likeMatch p.data (fieldVal f e).data

/-- Whether the whole clause accepts a row. -/
def entryMatches (cs : List Cond) (e : Entry) : Bool :=
  cs.all (fun c => condMatches c e)

/-- The LIKE pattern the builder interpolates for a substring filter. -/
def subPat (v : String) : String :=
  "%" ++ v ++ "%"

/-- Embedding of `buildWhereClause` (src/main.py lines 355-381): the chain of
`if`/`elif` truthiness tests, first satisfied branch wins, `else` returns
`None`. Each branch's list renders (via `renderWhere`) to exactly the
f-string the Python builds. -/
def buildWhereClause (id : Option PyVal) (service username tag : Option String) :
    Option (List Cond) :=
  if truthyV id then
    some [Cond.eq Field.id (pyvalStr id)]
  else if truthy service && truthy username && truthy tag then
    some [Cond.eq Field.service (getS service), Cond.eq Field.username (getS username),
      Cond.like Field.tag (subPat (getS tag))]
  else if truthy service && truthy username then
    some [Cond.eq Field.service (getS service), Cond.eq Field.username (getS username)]
  else if truthy service && truthy tag then
    some [Cond.eq Field.service (getS service), Cond.like Field.tag (subPat (getS tag))]
  else if truthy username && truthy tag then
    some [Cond.like Field.username (subPat (getS username)),
      Cond.like Field.tag (subPat (getS tag))]
  else if truthy service then
    some [Cond.like Field.service (subPat (getS service))]
  else if truthy tag then
    some [Cond.like Field.tag (subPat (getS tag))]
  else
    none

/-- Embedding of `search` (src/main.py lines 383-397): with no usable where
clause it returns `None` before touching the store (`none` here); otherwise
it runs the one select and displays the rows (`some` of the matching rows). -/
def search (db : List Entry) (id : Option PyVal) (service username tag : Option String) :
    Option (List Entry) :=
  match buildWhereClause id service username tag with
  | none => none
  | some cs => some (db.filter (fun e => entryMatches cs e))

/-- File-path derivation of `exportEntry` (src/main.py lines 307-317): the
stripped tag is split on whitespace runs, joined with '/', the root placed
in front when given, and the basename is the service with extension .gpg. -/
def exportFilename (tag service : String) (root : Option String) : String :=
  let dirs := pySplitWs (pyStrip tag)
  let dir := pyJoin ("/") dirs
  let dir2 := match root with
    | some r => r ++ "/" ++ dir
    | none => dir
  dir2 ++ "/" ++ service ++ ".gpg"

/-- Embedding of `exportEntry`'s file write: the pair (path, contents); the
contents are the stored ciphertext of the password column. -/
def exportEntryFile (e : Entry) (root : Option String) : String × String :=
  (exportFilename e.tag e.service root, e.password)

/-- Deleting one row by primary key, `db['ACCOUNT'].delete(id)`. -/
def deleteOne (db : List Entry) (k : Int) : List Entry :=
  db.filter (fun e => e.id != k)

/-- Embedding of `deleteEntries` (src/main.py lines 399-435). Result is
(deleted rows, remaining store, backup files written). With no usable
where clause it returns the empty list before touching the store; with an
empty result set it likewise stops. Otherwise each matched row is offered
to the interactive confirmation `confirm`; a confirmed row is backed up
(when `backup`) and removed by id. -/
def deleteEntries (db : List Entry) (id : Option PyVal) (service username tag : Option String)
    (confirm : Entry → Bool) (backup : Bool) (backupDir : String) :
    List Entry × List Entry × List (String × String) :=
  match buildWhereClause id service username tag with
  | none => ([], db, [])
  | some cs =>
    let results := db.filter (fun e => entryMatches cs e)
    if results.isEmpty then ([], db, [])
    else
      results.foldl
        (fun acc e =>
          if confirm e then
            (acc.1 ++ [e], deleteOne acc.2.1 e.id,
              if backup then acc.2.2 ++ [exportEntryFile e (some backupDir)] else acc.2.2)
          else acc)
        ([], db, [])

/-- The two encryption modes of the cipher engine. -/
inductive Mode where
  | shared
  | identity
deriving DecidableEq

/-- Idealized ciphertext: the engine is reversible, and the envelope records
which mode produced it (decryption auto-detects the mode from the
envelope, so `decrypt` never takes a mode flag). -/
structure CT where
  mode : Mode
  body : String
deriving DecidableEq

/-- The exact argument set `GPGCipher.encrypt` hands the gnupg engine: the
symmetric branch passes no recipients, symmetric=True and the passphrase;
the public-key branch passes the configured recipients with
always_trust=True and no passphrase. -/
structure EncCall where
  data : String
  symmetric : Bool
  recipients : Option String
  alwaysTrust : Bool
  passphrase : Option String
deriving DecidableEq

/-- The external gnupg engine, abstracted to the one bit the code inspects:
whether the call's result reports ok. -/
structure Engine where
  encOk : EncCall → Bool
  decOk : CT → Bool

/-- Embedding of the `GPGCipher` object (src/main.py lines 109-117). -/
structure GPGCipher where
  gnupghome : String
  keyring : String
  recipients : String
  symmetric : String

/-- The engine call `GPGCipher.encrypt` composes, branching on whether the
configured symmetric flag is exactly the string True. -/
def mkEncCall (symmetric recipients data passphrase : String) : EncCall :=
  if symmetric == "True" then
    { data := data, symmetric := true, recipients := none,
      alwaysTrust := false, passphrase := some passphrase }
  else
    { data := data, symmetric := false, recipients := some recipients,
      alwaysTrust := true, passphrase := none }

/-- The mode an encrypt call runs under, as selected by the comparison
`self.symmetric == 'True'` in `GPGCipher.encrypt`. -/
def modeOfSym (symmetric : String) : Mode :=
  if symmetric == "True" then Mode.shared else Mode.identity

/-- Embedding of `GPGCipher.encrypt` (src/main.py lines 119-144): one engine
call; on ok the decoded ciphertext is returned, otherwise the process
terminates with exit status 96 (`Except.error 96`). -/
def GPGCipher.encrypt (self : GPGCipher) (eng : Engine) (data passphrase : String) :
    Except Nat CT :=
  let call := mkEncCall self.symmetric self.recipients data passphrase
  if eng.encOk call then
    Except.ok { mode := modeOfSym self.symmetric, body := data }
  else
    Except.error 96

/-- Embedding of `GPGCipher.decrypt` (src/main.py lines 146-167): mode
agnostic; on ok the decoded plaintext is returned, otherwise the process
terminates with exit status 97. -/
def GPGCipher.decrypt (_self : GPGCipher) (eng : Engine) (ct : CT) (_passphrase : String) :
    Except Nat String :=
  if eng.decOk ct then Except.ok ct.body else Except.error 97

/-- The GPG section of the configuration file, as `getGPGconfig` reads it
fresh on every cryptographic operation. -/
structure GPGConfig where
  gnupg_home : String
  keyring : String
  recipients : String
  symmetric_encryption : String
  key : String
deriving DecidableEq

/-- The transcode negation in `EncryptPassword`:
symmetric = 'False' if symmetric=='True' else 'True'. -/
def flipSym (s : String) : String :=
  if s == "True" then "False" else "True"

/-- The opposite mode, for stating what the transcode flip achieves. -/
def oppMode : Mode → Mode
  | .shared => .identity
  | .identity => .shared

/-- Embedding of `EncryptPassword` (src/main.py lines 169-181): reads the
configuration, negates the symmetric flag for this call only when
`transcode`, builds the cipher and encrypts with the configured key. -/
def EncryptPassword (eng : Engine) (cfg : GPGConfig) (data : String) (transcode : Bool) :
    Except Nat CT :=
  let symmetric := if transcode then flipSym cfg.symmetric_encryption
    else cfg.symmetric_encryption
  let cipher : GPGCipher :=
    { gnupghome := cfg.gnupg_home, keyring := cfg.keyring,
      recipients := cfg.recipients, symmetric := symmetric }
  cipher.encrypt eng data cfg.key

/-- Embedding of `DecryptPassword` (src/main.py lines 183-195). -/
def DecryptPassword (eng : Engine) (cfg : GPGConfig) (ct : CT) : Except Nat String :=
  let cipher : GPGCipher :=
    { gnupghome := cfg.gnupg_home, keyring := cfg.keyring,
      recipients := cfg.recipients, symmetric := cfg.symmetric_encryption }
  cipher.decrypt eng ct cfg.key

/-- The columns of a stored row that `transcodeDb` touches. -/
structure CipherRow where
  id : Int
  password : CT
deriving DecidableEq

/-- The durable state the transcode path can see: the configuration file and
the ACCOUNT rows (in stored order, ascending id for a rowid table). -/
structure TState where
  cfg : GPGConfig
  rows : List CipherRow
deriving DecidableEq

/-- The per-row loop of `transcodeDb`: decrypt under the current
configuration, re-encrypt with transcode=True, update the row in place.
A cipher failure is `sys.exit`: the pair's second component records the
exit status and the remaining rows stay as they were. -/
def transcodeRows (eng : Engine) (cfg : GPGConfig) :
    List CipherRow → List CipherRow × Option Nat
  | [] => ([], none)
  | r :: rs =>
    match DecryptPassword eng cfg r.password with
    | Except.error c => (r :: rs, some c)
    | Except.ok clear =>
      match EncryptPassword eng cfg clear true with
      | Except.error c => (r :: rs, some c)
      | Except.ok ct =>
        let rest := transcodeRows eng cfg rs
        ({ r with password := ct } :: rest.1, rest.2)

/-- Embedding of `transcodeDb` (src/main.py lines 340-353): the loop over all
rows; nothing in this path writes the configuration back. Result is the
final durable state plus the exit status when the process died mid-batch. -/
def transcodeDb (eng : Engine) (st : TState) : TState × Option Nat :=
  let r := transcodeRows eng st.cfg st.rows
  ({ cfg := st.cfg, rows := r.1 }, r.2)

/-- The four optional filter inputs, bundled for the spec-side table. -/
structure FilterIn where
  id : Option PyVal
  service : Option String
  username : Option String
  tag : Option String

/-- First-match selection over a priority table of rows, as §4.2 of the spec
words it: checked in order, first satisfied condition wins. -/
def firstMatch : List ((FilterIn → Bool) × (FilterIn → List Cond)) → FilterIn →
    Option (List Cond)
  | [], _ => none
  | r :: rs, f => if r.1 f then some (r.2 f) else firstMatch rs f

/-- A substring-semantics entry of the spec table, realized as the LIKE
pattern the program interpolates. -/
def specSubstr (f : Field) (v : String) : Cond :=
  Cond.like f (subPat v)

/-- A exact-semantics entry of the spec table. -/
def specExact (f : Field) (v : String) : Cond :=
  Cond.eq f v

/-- The priority table of spec §4.2, amended to the seven rows the code
implements (the spec's row 7, username alone, has no branch in the code):
id; service+username+tag; service+username; service+tag; username+tag;
service only; tag only. Presence is truthiness. -/
def specPriorityRows : List ((FilterIn → Bool) × (FilterIn → List Cond)) :=
  [ (fun f => truthyV f.id,
      fun f => [specExact Field.id (pyvalStr f.id)]),
    (fun f => truthy f.service && truthy f.username && truthy f.tag,
      fun f => [specExact Field.service (getS f.service),
        specExact Field.username (getS f.username), specSubstr Field.tag (getS f.tag)]),
    (fun f => truthy f.service && truthy f.username,
      fun f => [specExact Field.service (getS f.service),
        specExact Field.username (getS f.username)]),
    (fun f => truthy f.service && truthy f.tag,
      fun f => [specExact Field.service (getS f.service), specSubstr Field.tag (getS f.tag)]),
    (fun f => truthy f.username && truthy f.tag,
      fun f => [specSubstr Field.username (getS f.username),
        specSubstr Field.tag (getS f.tag)]),
    (fun f => truthy f.service,
      fun f => [specSubstr Field.service (getS f.service)]),
    (fun f => truthy f.tag,
      fun f => [specSubstr Field.tag (getS f.tag)]) ]

/-- The spec-side predicate builder: first-match over the amended table. -/
def specBuildWhere (f : FilterIn) : Option (List Cond) :=
  firstMatch specPriorityRows f

/-- The eight presence conditions of the spec's priority table, in order (the
last three are the single-field rows; under first-match precedence bare
presence is the condition checked there). -/
def specFilterConds (id : Option PyVal) (service username tag : Option String) : List Bool :=
  [truthyV id,
   truthy service && truthy username && truthy tag,
   truthy service && truthy username,
   truthy service && truthy tag,
   truthy username && truthy tag,
   truthy service,
   truthy username,
   truthy tag]

/-- A produced condition never tests against an empty literal: equality
carries a nonempty value, a LIKE pattern carries a nonempty core between
its two wildcards. -/
def condNonEmptyLit : Cond → Prop
  | .eq _ v => v ≠ ""
  | .like _ p => 3 ≤ p.length

/-- A concrete stored row, for witnesses and counterexamples. -/
def sampleEntry : Entry :=
  { id := 1, service := "github", username := "alice", password := "CIPHERTEXT",
    tag := "abc", note := "" }

/-- An engine for which every call succeeds. -/
def okEng : Engine :=
  { encOk := fun _ => true, decOk := fun _ => true }

/-- An engine for which every call reports a non-ok status (an expired or
missing key, say). -/
def failEng : Engine :=
  { encOk := fun _ => false, decOk := fun _ => false }

/-- An engine whose key material can no longer decrypt the second sample
row's ciphertext. -/
def failSecondEng : Engine :=
  { encOk := fun _ => true, decOk := fun ct => ct.body != "pw2" }

/-- A concrete configuration in shared-secret mode. -/
def cfgShared : GPGConfig :=
  { gnupg_home := "~/.gnupg", keyring := "kr", recipients := "me",
    symmetric_encryption := "True", key := "k" }

/-- Two stored cipher rows in ascending-id order, both under shared-secret
mode. -/
def sampleRows : List CipherRow :=
  [ { id := 1, password := { mode := Mode.shared, body := "pw1" } },
    { id := 2, password := { mode := Mode.shared, body := "pw2" } } ]

/-- A concrete cipher object and ciphertext for exercising the exit paths. -/
def sampleCipher : GPGCipher :=
  { gnupghome := "~/.gnupg", keyring := "kr", recipients := "me", symmetric := "True" }

def sampleCT : CT :=
  { mode := Mode.shared, body := "pw" }

/-! ## Helper lemmas -/

theorem toDigitsCore_ne_nil (b f n : Nat) (ds : List Char) (h : ds ≠ [] ∨ 0 < f) :
    Nat.toDigitsCore b f n ds ≠ [] := by
  induction f generalizing n ds with
  | zero =>
    simp only [Nat.toDigitsCore]
    rcases h with h | h
    · exact h
    · omega
  | succ f ih =>
    simp only [Nat.toDigitsCore]
    split
    · simp
    · exact ih (n / b) _ (Or.inl (by simp))

theorem int_toString_ne_empty (n : Int) : toString n ≠ "" := by
  have hnat : ∀ m : Nat, Nat.repr m ≠ "" := by
    intro m
    have h1 := toDigitsCore_ne_nil 10 (m + 1) m [] (Or.inr (Nat.succ_pos m))
    simp only [Nat.repr, Nat.toDigits, ne_eq]
    intro hc
    apply h1
    have h2 := congrArg String.data hc
    simpa [List.asString] using h2
  show Int.repr n ≠ ""
  cases n with
  | ofNat m => simpa [Int.repr] using hnat m
  | negSucc m =>
    simp only [Int.repr, ne_eq]
    intro hc
    have hd := congrArg String.data hc
    rw [String.data_append] at hd
    simp at hd

theorem truthy_some_iff (s : String) : truthy (some s) = true ↔ s ≠ "" := by
  simp [truthy]

theorem pyvalStr_ne_empty (id : Option PyVal) (h : truthyV id = true) :
    pyvalStr id ≠ "" := by
  cases id with
  | none => simp [truthyV] at h
  | some v =>
    cases v with
    | str s => simpa [truthyV, pyvalStr] using h
    | int n => exact int_toString_ne_empty n

theorem subPat_length (v : String) (h : v ≠ "") : 3 ≤ (subPat v).length := by
  have hp : 0 < v.length := by
    cases v with
    | mk l =>
      cases l with
      | nil => simp at h
      | cons c t => simp [String.length]
  have e1 : "%".length = 1 := rfl
  simp only [subPat, String.length_append]
  omega

theorem getS_ne_empty (o : Option String) (h : truthy o = true) : getS o ≠ "" := by
  cases o with
  | none => simp [truthy] at h
  | some s => simpa [truthy, getS] using h

/-! ## C1: the priority table of the predicate builder -/

/-- C1 counterexample: with username alone supplied (id, service, tag
absent), `buildWhereClause` returns no predicate at all — not the
substring-match predicate on username that the claim's eight-row table
promises in its row 7. -/
theorem buildWhereClause_username_only_no_predicate :
    buildWhereClause none none (some ("alice")) none = none := rfl

/-- C1 (amended): `buildWhereClause` selects exactly the first-matching row
of a seven-row priority table — id; service+username+tag;
service+username; service+tag; username+tag; service only; tag only —
and returns no predicate when none of those seven conditions holds; in
particular username alone selects no row. Stated as a refinement against
`specBuildWhere`, the first-match selector over the spec-worded table
amended to those seven rows. -/
theorem buildWhereClause_eq_priority_table (id : Option PyVal) (s u t : Option String) :
    buildWhereClause id s u t =
      specBuildWhere { id := id, service := s, username := u, tag := t } := rfl

/-! ## C2: no usable filter means zero store operations -/

/-- C2: whenever none of the eight priority-table presence conditions holds,
the builder returns no predicate, `search` answers `none` without running
any query, and `deleteEntries` returns the empty deleted list with the
store unchanged and no backup file written. -/
theorem noFilter_no_store_ops (id : Option PyVal) (s u t : Option String)
    (db : List Entry) (confirm : Entry → Bool) (backup : Bool) (bdir : String)
    (h : ∀ b ∈ specFilterConds id s u t, b = false) :
    buildWhereClause id s u t = none ∧ search db id s u t = none ∧
      deleteEntries db id s u t confirm backup bdir = ([], db, []) := by
  simp only [specFilterConds, List.mem_cons, List.not_mem_nil, or_false, forall_eq_or_imp,
    forall_eq] at h
  obtain ⟨h1, _, _, _, _, h6, h7, h8⟩ := h
  have hb : buildWhereClause id s u t = none := by
    simp [buildWhereClause, h1, h6, h7, h8]
  refine ⟨hb, ?_, ?_⟩
  · simp [search, hb]
  · simp [deleteEntries, hb]

/-- C2 witness: the all-absent input satisfies the hypothesis, and both
callers perform zero store operations on a concrete store. -/
theorem noFilter_no_store_ops_inst :
    buildWhereClause none none none none = none ∧
      search [sampleEntry] none none none none = none ∧
      deleteEntries [sampleEntry] none none none none (fun _ => true) true ("./_DELETED") =
        ([], [sampleEntry], []) :=
  noFilter_no_store_ops none none none none [sampleEntry] (fun _ => true) true
    ("./_DELETED") (by decide)

/-! ## C3: caller text is interpolated, wildcards widen the match -/

/-- C3 is refuted by the code: filtering on tag `%` builds the LIKE pattern
`%%%`, whose interpolated `%` is a wildcard; the predicate then accepts
the stored row with tag `abc`, which does not literally contain `%`. The
caller-supplied text thus widens the match, against the claim. -/
theorem tag_wildcard_escapes_literal_match :
    buildWhereClause none none none (some ("%")) = some [Cond.like Field.tag ("%%%")] ∧
      search [sampleEntry] none none none (some ("%")) = some [sampleEntry] ∧
      ¬ ("%".data <:+: sampleEntry.tag.data) := by
  refine ⟨rfl, by decide, by decide⟩

/-! ## C9: presence is truthiness, empty strings are absent -/

/-- C9: `buildWhereClause` distinguishes present from absent by Python
truthiness alone — an empty-string service, username or tag, and an id of
integer 0 or empty string, yield exactly the output of the omitted input —
and every predicate it ever produces tests against a nonempty literal
(equality values are nonempty, LIKE patterns have a nonempty core between
their wildcards), so no predicate matching the empty string is
expressible. -/
theorem buildWhereClause_truthiness_only :
    (∀ (id : Option PyVal) (u t : Option String),
        buildWhereClause id (some ("")) u t = buildWhereClause id none u t) ∧
    (∀ (id : Option PyVal) (s t : Option String),
        buildWhereClause id s (some ("")) t = buildWhereClause id s none t) ∧
    (∀ (id : Option PyVal) (s u : Option String),
        buildWhereClause id s u (some ("")) = buildWhereClause id s u none) ∧
    (∀ (s u t : Option String),
        buildWhereClause (some (PyVal.int 0)) s u t = buildWhereClause none s u t) ∧
    (∀ (s u t : Option String),
        buildWhereClause (some (PyVal.str (""))) s u t = buildWhereClause none s u t) ∧
    (∀ (id : Option PyVal) (s u t : Option String) (cs : List Cond),
        buildWhereClause id s u t = some cs → ∀ c ∈ cs, condNonEmptyLit c) := by
  refine ⟨fun id u t => rfl, fun id s t => rfl, fun id s u => rfl,
    fun s u t => rfl, fun s u t => rfl, ?_⟩
  intro id s u t cs hcs c hc
  unfold buildWhereClause at hcs
  split_ifs at hcs with h1 h2 h3 h4 h5 h6 h7
  · cases Option.some.inj hcs
    rcases List.mem_singleton.mp hc with rfl
    exact pyvalStr_ne_empty id h1
  · cases Option.some.inj hcs
    simp only [Bool.and_eq_true] at h2
    rcases List.mem_cons.mp hc with rfl | hc2
    · exact getS_ne_empty s h2.1.1
    · rcases List.mem_cons.mp hc2 with rfl | hc3
      · exact getS_ne_empty u h2.1.2
      · rcases List.mem_singleton.mp hc3 with rfl
        exact subPat_length _ (getS_ne_empty t h2.2)
  · cases Option.some.inj hcs
    simp only [Bool.and_eq_true] at h3
    rcases List.mem_cons.mp hc with rfl | hc2
    · exact getS_ne_empty s h3.1
    · rcases List.mem_singleton.mp hc2 with rfl
      exact getS_ne_empty u h3.2
  · cases Option.some.inj hcs
    simp only [Bool.and_eq_true] at h4
    rcases List.mem_cons.mp hc with rfl | hc2
    · exact getS_ne_empty s h4.1
    · rcases List.mem_singleton.mp hc2 with rfl
      exact subPat_length _ (getS_ne_empty t h4.2)
  · cases Option.some.inj hcs
    simp only [Bool.and_eq_true] at h5
    rcases List.mem_cons.mp hc with rfl | hc2
    · exact subPat_length _ (getS_ne_empty u h5.1)
    · rcases List.mem_singleton.mp hc2 with rfl
      exact subPat_length _ (getS_ne_empty t h5.2)
  · cases Option.some.inj hcs
    rcases List.mem_singleton.mp hc with rfl
    exact subPat_length _ (getS_ne_empty s h6)
  · cases Option.some.inj hcs
    rcases List.mem_singleton.mp hc with rfl
    exact subPat_length _ (getS_ne_empty t h7)

/-- C9 witness: concrete instances of the truthiness equalities and of the
nonempty-literal guarantee, obtained from the theorem at concrete
inputs. -/
theorem buildWhereClause_truthiness_only_inst :
    buildWhereClause none (some ("")) none none = buildWhereClause none none none none ∧
      condNonEmptyLit (Cond.like Field.tag ("%x%")) :=
  ⟨buildWhereClause_truthiness_only.1 none none none,
    buildWhereClause_truthiness_only.2.2.2.2.2 none none none (some ("x"))
      [Cond.like Field.tag ("%x%")] rfl _ (List.mem_singleton.mpr rfl)⟩

/-! ## C4, C6: the transcode mode flip -/

theorem modeOfSym_flipSym (s : String) : modeOfSym (flipSym s) = oppMode (modeOfSym s) := by
  by_cases h : s = "True"
  · subst h; rfl
  · simp [flipSym, modeOfSym, oppMode, beq_iff_eq, h]

/-- C4: encrypting with transcode=true runs the engine under the mode
opposite to the configured one for that single call, and no operation of
the transcode path writes the flipped mode back: the configuration
component of the durable state after `transcodeDb` is the input
configuration, unchanged. -/
theorem transcode_flips_mode_not_config (eng : Engine) (cfg : GPGConfig) (data : String)
    (st : TState) (ct : CT) :
    (EncryptPassword eng cfg data true = Except.ok ct →
        ct.mode = oppMode (modeOfSym cfg.symmetric_encryption)) ∧
      (transcodeDb eng st).1.cfg = st.cfg := by
  constructor
  · intro h
    simp only [EncryptPassword, GPGCipher.encrypt, if_true] at h
    split at h
    · injection h with h2
      subst h2
      exact modeOfSym_flipSym cfg.symmetric_encryption
    · exact absurd h (by simp)
  · rfl

/-- C4 witness: a concrete shared-secret configuration and an all-ok engine;
the transcode call produces identity-mode ciphertext, and a concrete
transcode batch leaves the configuration untouched. -/
theorem transcode_flips_mode_not_config_inst :
    CT.mode { mode := Mode.identity, body := "pw" } =
        oppMode (modeOfSym cfgShared.symmetric_encryption) ∧
      (transcodeDb okEng { cfg := cfgShared, rows := sampleRows }).1.cfg = cfgShared :=
  have h := transcode_flips_mode_not_config okEng cfgShared "pw"
    { cfg := cfgShared, rows := sampleRows } { mode := Mode.identity, body := "pw" }
  ⟨h.1 rfl, h.2⟩

/-- C6: the transcode flip is an involution at the mode level — flipping the
configured symmetric flag twice selects the same encryption mode as not
flipping at all — although the twice-flipped string value need not equal
the original string (the value `true` becomes `False`). -/
theorem flip_twice_same_mode :
    (∀ s : String, modeOfSym (flipSym (flipSym s)) = modeOfSym s) ∧
      flipSym (flipSym ("true")) ≠ "true" := by
  constructor
  · intro s
    by_cases h : s = "True"
    · subst h; rfl
    · simp [flipSym, modeOfSym, beq_iff_eq, h]
  · decide

/-! ## C5: batch transcode under a mid-batch cipher failure -/

/-- C5's failing run evaluated on the embedding: two rows in ascending-id
order, the engine unable to decrypt row 2. The batch converts row 1,
terminates with exit status 97 at row 2 and leaves row 2 under the old
mode; the code produces no report of converted versus unconverted ids —
the only output of the failure path is the cipher's status message. -/
theorem transcodeDb_stops_no_report :
    transcodeDb failSecondEng { cfg := cfgShared, rows := sampleRows } =
      ({ cfg := cfgShared,
         rows := [ { id := 1, password := { mode := Mode.identity, body := "pw1" } },
                   { id := 2, password := { mode := Mode.shared, body := "pw2" } } ] },
        some 97) := by
  decide

/-! ## C7: cipher failures terminate the process with distinct codes -/

/-- C7: whenever the engine reports a non-ok status the operation terminates
the process (`Except.error`) with a non-zero exit status, 96 for encrypt
and 97 for decrypt, distinct from each other; on an ok status the
operation returns the engine's decoded data. -/
theorem cipher_failure_exit_codes (eng : Engine) (cipher : GPGCipher)
    (data passphrase : String) (ct : CT) :
    (eng.encOk (mkEncCall cipher.symmetric cipher.recipients data passphrase) = false →
        cipher.encrypt eng data passphrase = Except.error 96) ∧
    (eng.encOk (mkEncCall cipher.symmetric cipher.recipients data passphrase) = true →
        cipher.encrypt eng data passphrase =
          Except.ok { mode := modeOfSym cipher.symmetric, body := data }) ∧
    (eng.decOk ct = false → cipher.decrypt eng ct passphrase = Except.error 97) ∧
    (eng.decOk ct = true → cipher.decrypt eng ct passphrase = Except.ok ct.body) ∧
    ((96 : Nat) ≠ 0 ∧ (97 : Nat) ≠ 0 ∧ (96 : Nat) ≠ 97) := by
  refine ⟨?_, ?_, ?_, ?_, by decide⟩
  · intro h
    simp [GPGCipher.encrypt, h]
  · intro h
    simp [GPGCipher.encrypt, h]
  · intro h
    simp [GPGCipher.decrypt, h]
  · intro h
    simp [GPGCipher.decrypt, h]

/-- C7 witness: a concrete cipher against the failing engine exits with 96
on encrypt and 97 on decrypt. -/
theorem cipher_failure_exit_codes_inst :
    sampleCipher.encrypt failEng ("d") ("k") = Except.error 96 ∧
      sampleCipher.decrypt failEng sampleCT ("k") = Except.error 97 :=
  have h := cipher_failure_exit_codes failEng sampleCipher ("d") ("k") sampleCT
  ⟨h.1 rfl, h.2.2.1 rfl⟩

/-! ## C10: shared-secret exactly on the literal string True -/

/-- C10: the engine call is symmetric, and the selected mode is
shared-secret, exactly when the configured symmetric_encryption value is
the literal string True; the values true, yes and 1 all select identity
mode with the configured recipients and unconditional trust. -/
theorem symmetric_iff_literal_True (s recips data pass : String) :
    ((mkEncCall s recips data pass).symmetric = true ↔ s = "True") ∧
    (modeOfSym s = Mode.shared ↔ s = "True") ∧
    mkEncCall ("true") recips data pass =
      { data := data, symmetric := false, recipients := some recips,
        alwaysTrust := true, passphrase := none } ∧
    mkEncCall ("yes") recips data pass =
      { data := data, symmetric := false, recipients := some recips,
        alwaysTrust := true, passphrase := none } ∧
    mkEncCall ("1") recips data pass =
      { data := data, symmetric := false, recipients := some recips,
        alwaysTrust := true, passphrase := none } := by
  refine ⟨?_, ?_, rfl, rfl, rfl⟩
  · by_cases h : s = "True" <;> simp [mkEncCall, h]
  · by_cases h : s = "True" <;> simp [modeOfSym, h]

/-! ## C8: the export path derived from tag and service -/

theorem mk_data (s : String) : String.mk s.data = s := by
  cases s
  rfl

theorem dropWhile_eq_self_of_head (p : Char → Bool) (l : List Char)
    (h : ∀ c, l.head? = some c → p c = false) : l.dropWhile p = l := by
  cases l with
  | nil => rfl
  | cons c t =>
    have hc := h c rfl
    simp [List.dropWhile, hc]

theorem splitWsAux_of_drop_nil (l : List Char)
    (h : l.dropWhile (fun c => !(isPySpace c)) = []) :
    splitWsAux l = [String.mk (l.takeWhile (fun c => !(isPySpace c)))] := by
  rw [splitWsAux]
  split
  · rfl
  next c t heq =>
    rw [h] at heq
    cases heq

theorem splitWsAux_of_drop_cons (l : List Char) (c : Char) (t : List Char)
    (h : l.dropWhile (fun c => !(isPySpace c)) = c :: t) :
    splitWsAux l = String.mk (l.takeWhile (fun c => !(isPySpace c))) ::
      splitWsAux (t.dropWhile isPySpace) := by
  rw [splitWsAux]
  split
  next heq =>
    rw [h] at heq
    cases heq
  next c2 t2 heq =>
    rw [h] at heq
    cases heq
    rfl

theorem pyJoin_data_cons_cons (w r : String) (rs : List String) :
    (pyJoin (" ") (w :: r :: rs)).data =
      w.data ++ ' ' :: (pyJoin (" ") (r :: rs)).data := by
  show (w ++ " " ++ pyJoin (" ") (r :: rs)).data = _
  rw [String.data_append, String.data_append]
  have hsp : (" ").data = [' '] := rfl
  rw [hsp, List.append_assoc]
  rfl

theorem pyJoin_data_ne_nil (ws : List String) (hne : ws ≠ [])
    (hw : ∀ w ∈ ws, w.data ≠ []) : (pyJoin (" ") ws).data ≠ [] := by
  cases ws with
  | nil => exact absurd rfl hne
  | cons w rest =>
    cases rest with
    | nil => exact hw w (List.mem_cons_self w [])
    | cons r rs =>
      rw [pyJoin_data_cons_cons]
      exact List.append_ne_nil_of_left_ne_nil (hw w (List.mem_cons_self w (r :: rs))) _

theorem pyJoin_head_nonspace (ws : List String) (hne : ws ≠ [])
    (hw : ∀ w ∈ ws, w.data ≠ [] ∧ ∀ c ∈ w.data, isPySpace c = false) :
    ∀ c, (pyJoin (" ") ws).data.head? = some c → isPySpace c = false := by
  cases ws with
  | nil => exact absurd rfl hne
  | cons w rest =>
    obtain ⟨hwne, hwns⟩ := hw w (List.mem_cons_self w rest)
    cases rest with
    | nil =>
      intro c hc
      exact hwns c (List.mem_of_mem_head? hc)
    | cons r rs =>
      intro c hc
      rw [pyJoin_data_cons_cons, List.head?_append_of_ne_nil _ hwne] at hc
      exact hwns c (List.mem_of_mem_head? hc)

theorem pyJoin_last_nonspace (ws : List String) (hne : ws ≠ [])
    (hw : ∀ w ∈ ws, w.data ≠ [] ∧ ∀ c ∈ w.data, isPySpace c = false) :
    ∀ c, (pyJoin (" ") ws).data.getLast? = some c → isPySpace c = false := by
  induction ws with
  | nil => exact absurd rfl hne
  | cons w rest ih =>
    obtain ⟨hwne, hwns⟩ := hw w (List.mem_cons_self w rest)
    cases rest with
    | nil =>
      intro c hc
      exact hwns c (List.mem_of_mem_getLast? hc)
    | cons r rs =>
      intro c hc
      have hJne : (pyJoin (" ") (r :: rs)).data ≠ [] :=
        pyJoin_data_ne_nil (r :: rs) (by simp)
          (fun x hx => (hw x (List.mem_cons_of_mem w hx)).1)
      rw [pyJoin_data_cons_cons, List.getLast?_append_of_ne_nil _ (by simp),
        show (' ' :: (pyJoin (" ") (r :: rs)).data) =
          [' '] ++ (pyJoin (" ") (r :: rs)).data from rfl,
        List.getLast?_append_of_ne_nil _ hJne] at hc
      exact ih (by simp) (fun x hx => hw x (List.mem_cons_of_mem w hx)) c hc

theorem pyStrip_join (ws : List String) (hne : ws ≠ [])
    (hw : ∀ w ∈ ws, w.data ≠ [] ∧ ∀ c ∈ w.data, isPySpace c = false) :
    pyStrip (pyJoin (" ") ws) = pyJoin (" ") ws := by
  have h1 := pyJoin_head_nonspace ws hne hw
  have h2 := pyJoin_last_nonspace ws hne hw
  show String.mk ((((pyJoin (" ") ws).data.dropWhile
      isPySpace).reverse.dropWhile isPySpace).reverse) = _
  rw [dropWhile_eq_self_of_head _ _ h1,
    dropWhile_eq_self_of_head _ _ (fun c hc => h2 c (by rwa [List.head?_reverse] at hc)),
    List.reverse_reverse]

theorem splitWsAux_join (ws : List String) (hne : ws ≠ [])
    (hw : ∀ w ∈ ws, w.data ≠ [] ∧ ∀ c ∈ w.data, isPySpace c = false) :
    splitWsAux (pyJoin (" ") ws).data = ws := by
  induction ws with
  | nil => exact absurd rfl hne
  | cons w rest ih =>
    obtain ⟨hwne, hwns⟩ := hw w (List.mem_cons_self w rest)
    have hptw : ∀ c ∈ w.data, (fun c => !(isPySpace c)) c = true := by
      intro c hc
      simp [hwns c hc]
    cases rest with
    | nil =>
      have ht : (pyJoin (" ") [w]).data.takeWhile (fun c => !(isPySpace c)) = w.data :=
        List.takeWhile_eq_self_iff.mpr hptw
      have hd : (pyJoin (" ") [w]).data.dropWhile (fun c => !(isPySpace c)) = [] :=
        List.dropWhile_eq_nil_iff.mpr hptw
      rw [splitWsAux_of_drop_nil _ hd, ht, mk_data]
    | cons r rs =>
      have hdata := pyJoin_data_cons_cons w r rs
      have hJne : (pyJoin (" ") (r :: rs)).data ≠ [] :=
        pyJoin_data_ne_nil (r :: rs) (by simp)
          (fun x hx => (hw x (List.mem_cons_of_mem w hx)).1)
      have hd : (pyJoin (" ") (w :: r :: rs)).data.dropWhile (fun c => !(isPySpace c)) =
          ' ' :: (pyJoin (" ") (r :: rs)).data := by
        rw [hdata, List.dropWhile_append_of_pos hptw]
        simp [List.dropWhile, isPySpace]
      have ht : (pyJoin (" ") (w :: r :: rs)).data.takeWhile (fun c => !(isPySpace c)) =
          w.data := by
        rw [hdata, List.takeWhile_append_of_pos hptw]
        simp [List.takeWhile, isPySpace]
      rw [splitWsAux_of_drop_cons _ _ _ hd, ht, mk_data]
      have hrest : (pyJoin (" ") (r :: rs)).data.dropWhile isPySpace =
          (pyJoin (" ") (r :: rs)).data :=
        dropWhile_eq_self_of_head _ _
          (pyJoin_head_nonspace (r :: rs) (by simp)
            (fun x hx => hw x (List.mem_cons_of_mem w hx)))
      rw [hrest, ih (by simp) (fun x hx => hw x (List.mem_cons_of_mem w hx))]

/-- C8: for an entry whose tag is a whitespace-joined list of nonempty,
whitespace-free words, the export path nests those words as directory
segments joined by '/', under the root when one is given, with basename
service.gpg; and the file written carries the entry's stored ciphertext. -/
theorem exportFilename_tag_path (ws : List String) (service root : String)
    (hne : ws ≠ [])
    (hw : ∀ w ∈ ws, w.data ≠ [] ∧ ∀ c ∈ w.data, isPySpace c = false) :
    exportFilename (pyJoin (" ") ws) service (some root) =
        root ++ "/" ++ pyJoin ("/") ws ++ "/" ++ service ++ ".gpg" ∧
      exportFilename (pyJoin (" ") ws) service none =
        pyJoin ("/") ws ++ "/" ++ service ++ ".gpg" ∧
      ∀ (e : Entry), exportEntryFile e (some root) =
        (exportFilename e.tag e.service (some root), e.password) := by
  have hsplit : pySplitWs (pyStrip (pyJoin (" ") ws)) = ws := by
    rw [pyStrip_join ws hne hw]
    exact splitWsAux_join ws hne hw
  refine ⟨?_, ?_, fun e => rfl⟩
  · simp only [exportFilename]
    rw [hsplit]
  · simp only [exportFilename]
    rw [hsplit]

/-- C8 witness: the spec's own example — tag work personal, service github,
export root applied — lands at the nested path with basename github.gpg. -/
theorem exportFilename_tag_path_inst :
    exportFilename ("work personal") ("github") (some ("_Export")) =
      "_Export/work/personal/github.gpg" :=
  (exportFilename_tag_path ["work", "personal"] ("github") ("_Export")
    (by decide) (by decide)).1

end PassDb
